import Mathlib

/-!
Verification development for the honeypot-application repository.

Shallow embedding conventions:
* Python strings are modelled as `List Char` (`Str`); the honeypots only ever
  process single-byte reads, so a received byte is modelled as a `Char` and
  `bytes.decode("utf-8", errors="ignore")` on such data is the identity.
* `str.lower()` is modelled on the ASCII range (the only range the fixed
  pattern tables and command tables use).
* Falliable socket I/O is modelled by explicit oracles: a read either yields
  data, an end-of-stream, or a timeout; a send either succeeds or raises.
-/

set_option maxHeartbeats 1000000

abbrev Str := List Char

/-- ASCII lowercasing of one character, modelling Python `str.lower()` on the
ASCII range. -/
def lowerChar (c : Char) : Char :=
  if 'A' ≤ c ∧ c ≤ 'Z' then Char.ofNat (c.toNat + 32) else c

/-- `s.lower()` on ASCII data. -/
def lowerL (s : Str) : Str := s.map lowerChar

/-- `startsWithL s pat` is Python `s.startswith(pat)`. -/
def startsWithL : Str → Str → Bool
  | _, [] => true
  | [], _ :: _ => false
  | a :: as, b :: bs => decide (a = b) && startsWithL as bs

/-- `hasSub s pat` is Python `pat in s` (substring containment). -/
def hasSub : Str → Str → Bool
  | [], pat => pat.isEmpty
  | a :: as, pat => startsWithL (a :: as) pat || hasSub as pat

/-- Python `any(p in s for p in pats)`. -/
def containsAny (s : Str) (pats : List Str) : Bool :=
  pats.any (fun p => hasSub s p)

/-- Python whitespace characters relevant to `str.strip()` / `str.split()`
on ASCII data. -/
def isSpaceChar (c : Char) : Bool :=
  c ∈ [Char.ofNat 32, Char.ofNat 9, Char.ofNat 10, Char.ofNat 13,
       Char.ofNat 11, Char.ofNat 12]

/-- Python `s.strip()` on ASCII data. -/
def stripL (s : Str) : Str :=
  ((s.dropWhile isSpaceChar).reverse.dropWhile isSpaceChar).reverse

/-- Helper for `splitWs`: accumulates the current (reversed) word. -/
def splitWsAux : Str → Str → List Str
  | [], cur => if cur.isEmpty then [] else [cur.reverse]
  | c :: rest, cur =>
    if isSpaceChar c then
      if cur.isEmpty then splitWsAux rest [] else cur.reverse :: splitWsAux rest []
    else splitWsAux rest (c :: cur)

/-- Python `s.split()` (split on whitespace runs, no empty words). -/
def splitWs (s : Str) : List Str := splitWsAux s []

/-- `len(s.split())`. -/
def wordCount (s : Str) : Nat := (splitWs s).length

/-- Threat/severity levels used by events and alerts. -/
inductive Level
  | low
  | medium
  | high
  | critical
deriving DecidableEq, Repr

/-- Structured event record, the union of the fields the claims are about.
Fields a given emission site does not set keep their defaults, mirroring
Python dict entries that are simply absent. -/
structure Event where
  event_type : String
  source_ip : Str := []
  source_port : Nat := 0
  destination_port : Nat := 0
  username : Str := []
  password : Str := []
  command : Str := []
  success : Bool := false
  attack_type : String := ""
  threat_level : Level := Level.low
deriving DecidableEq, Repr

/-! ## HTTP honeypot (src/honeypots/http/http_honeypot.py) -/

/-- The mutable statistics of `HTTPHoneypot` (`self.stats`), passed
explicitly so that theorems can state that the classifier ignores it. -/
structure HTTPStats where
  total_requests : Nat := 0
  unique_ips : List Str := []
deriving Repr

/-- The fields of the `request_data` dict that `analyze_request` can see. -/
structure RequestData where
  method : Str
  request_uri : Str
  user_agent : Str
  source_ip : Str
  referer : Str
  query_string : Str
deriving DecidableEq, Repr

def sql_patterns : List Str :=
  ["union".toList, "select".toList, "insert".toList, "update".toList,
   "delete".toList, "drop".toList, "create".toList, "alter".toList,
   [Char.ofNat 39], "\"".toList, "--".toList, "/*".toList]

def xss_patterns : List Str :=
  ["<script".toList, "javascript:".toList, "onload=".toList,
   "onerror=".toList, "alert(".toList, "document.cookie".toList]

def admin_patterns : List Str :=
  ["admin".toList, "wp-admin".toList, "phpmyadmin".toList, "login".toList,
   "administrator".toList, "manager".toList]

def scanner_agents : List Str :=
  ["bot".toList, "crawler".toList, "scanner".toList, "nikto".toList,
   "sqlmap".toList, "nmap".toList, "masscan".toList]

def cmd_patterns : List Str :=
  ["|".toList, ";".toList, "&&".toList, "||".toList, [Char.ofNat 96],
   "$".toList, "$(".toList]

/-- `any(pattern in uri for pattern in sql_patterns)`. -/
def sqlHit (uri : Str) : Bool := containsAny uri sql_patterns

/-- `any(pattern in uri for pattern in xss_patterns)`. -/
def xssHit (uri : Str) : Bool := containsAny uri xss_patterns

/-- `"../" in uri or "..\\" in uri`. -/
def travHit (uri : Str) : Bool :=
  hasSub uri "../".toList || hasSub uri "..\\".toList

/-- `any(pattern in uri for pattern in admin_patterns)`. -/
def adminHit (uri : Str) : Bool := containsAny uri admin_patterns

/-- `any(agent in user_agent for agent in scanner_agents)`. -/
def scanHit (ua : Str) : Bool := containsAny ua scanner_agents

/-- `"include" in uri or "require" in uri`. -/
def incHit (uri : Str) : Bool :=
  hasSub uri "include".toList || hasSub uri "require".toList

/-- `any(pattern in uri for pattern in cmd_patterns)`. -/
def cmdHit (uri : Str) : Bool := containsAny uri cmd_patterns

/-- `HTTPHoneypot.analyze_request`, translated statement by statement: the
tag list grows by appending, and `threat_level` is overwritten by each
matching rule in turn. -/
def analyze_request (stats : HTTPStats) (rd : RequestData) : List String × Level :=
  let uri := lowerL rd.request_uri
  let user_agent := lowerL rd.user_agent
  let method := rd.method
  let acc0 : List String × Level := ([], Level.low)
  let acc1 := if sqlHit uri then
      (acc0.1 ++ ["sql_injection"], Level.high) else acc0
  let acc2 := if xssHit uri then
      (acc1.1 ++ ["xss"], Level.high) else acc1
  let acc3 := if travHit uri then
      (acc2.1 ++ ["directory_traversal"], Level.medium) else acc2
  let acc4 := if adminHit uri then
      (acc3.1 ++ ["admin_access"], Level.medium) else acc3
  let acc5 := if scanHit user_agent then
      (acc4.1 ++ ["automated_scan"], Level.medium) else acc4
  let acc6 := if incHit uri then
      (acc5.1 ++ ["file_inclusion"], Level.high) else acc5
  let acc7 := if cmdHit uri then
      (acc6.1 ++ ["command_injection"], Level.high) else acc6
  acc7

/-- Spec-side rule table for 4.4: predicate, tag, severity, in source order. -/
def httpRules : List ((Str → Str → Bool) × String × Level) :=
  [(fun uri _ => sqlHit uri, "sql_injection", Level.high),
   (fun uri _ => xssHit uri, "xss", Level.high),
   (fun uri _ => travHit uri, "directory_traversal", Level.medium),
   (fun uri _ => adminHit uri, "admin_access", Level.medium),
   (fun _ ua => scanHit ua, "automated_scan", Level.medium),
   (fun uri _ => incHit uri, "file_inclusion", Level.high),
   (fun uri _ => cmdHit uri, "command_injection", Level.high)]

/-- Spec-side: the rules matching a lowered (uri, user-agent) pair. -/
def matchedRules (uri ua : Str) : List ((Str → Str → Bool) × String × Level) :=
  httpRules.filter (fun r => r.1 uri ua)

/-- Spec-side: the tags of all matching rules, in rule order. -/
def specTags (uri ua : Str) : List String :=
  (matchedRules uri ua).map (fun r => r.2.1)

/-- Spec-side (amended): the severity of the last matching rule, `low` if no
rule matches. -/
def specLevel (uri ua : Str) : Level :=
  (((matchedRules uri ua).map (fun r => r.2.2)).getLast?).getD Level.low

/-- The POST branch of the `fake_login` route: emits one `login_attempt`
event and renders the fixed failure page. -/
def fake_login_post (ip username password : Str) : List Event × String :=
  ([{ event_type := "login_attempt", source_ip := ip, username := username,
      password := password, success := false,
      attack_type := "credential_stuffing" }],
   "Login Failed")

/-! ## Telnet honeypot (src/honeypots/telnet/telnet_honeypot.py) -/

namespace Telnet

/-- One result of `client_socket.recv(1)` inside `get_input`: a received
byte (a `Char`, see the file header), an empty read (peer closed), or a
raised `socket.timeout` / socket error (both caught and mapped to `None`
by `get_input`, so both are modelled by `timeout`). -/
inductive RecvR
  | byte (c : Char)
  | closed
  | timeout
deriving DecidableEq, Repr

/-- `chunk == b"\r" or chunk == b"\n"`. -/
def isEOL (c : Char) : Bool :=
  decide (c = Char.ofNat 13) || decide (c = Char.ofNat 10)

/-- `chunk == b"\x08" or chunk == b"\x7f"`. -/
def isBS (c : Char) : Bool :=
  decide (c = Char.ofNat 8) || decide (c = Char.ofNat 127)

/-- The `b"\x08 \x08"` erase sequence echoed for a deletion in plain mode. -/
def eraseSeq : Str := [Char.ofNat 8, Char.ofNat 32, Char.ofNat 8]

/-- The `while True` loop of `TelnetHoneypot.get_input`: `data` is the
accumulated buffer, `echo` the bytes sent back so far.  Returns the raw
(unstripped) line on CR/LF or peer close, `none` on timeout, together with
the echoes and the unconsumed remainder of the stream.  An exhausted stream
behaves like a closed peer (`recv` returning `b""`). -/
def get_input_go (hide : Bool) (data echo : Str) :
    List RecvR → Option Str × Str × List RecvR
  | [] => (some data, echo, [])
  | RecvR.closed :: rest => (some data, echo, rest)
  | RecvR.timeout :: rest => (none, echo, rest)
  | RecvR.byte c :: rest =>
    if isEOL c then (some data, echo, rest)
    else if isBS c then
      if data.isEmpty then get_input_go hide data echo rest
      else get_input_go hide data.dropLast
            (echo ++ (if hide then [] else eraseSeq)) rest
    else
      get_input_go hide (data ++ [c])
        (echo ++ (if hide then [Char.ofNat 42] else [c])) rest

/-- `TelnetHoneypot.get_input`: run the loop on an empty buffer and return
`data.decode("utf-8", errors="ignore").strip()` on success, `None` on
timeout/error. -/
def get_input (hide : Bool) (rl : List RecvR) : Option Str × Str × List RecvR :=
  match get_input_go hide [] [] rl with
  | (some d, e, rest) => (some (stripL d), e, rest)
  | (none, e, rest) => (none, e, rest)

/-- The fixed `iot_credentials` list of `handle_login_attempt`. -/
def iot_credentials : List (Str × Str) :=
  [("admin".toList, "admin".toList), ("root".toList, "root".toList),
   ("admin".toList, "password".toList), ("root".toList, "password".toList),
   ("admin".toList, "123456".toList), ("root".toList, "123456".toList),
   ("user".toList, "user".toList), ("guest".toList, "guest".toList),
   ("support".toList, "support".toList), ("admin".toList, "".toList),
   ("root".toList, "".toList), ("".toList, "".toList),
   ("admin".toList, "1234".toList), ("root".toList, "toor".toList),
   ("admin".toList, "pass".toList)]

/-- `TelnetHoneypot.handle_login_attempt`: classify the pair and build the
`login_attempt` event (the statistics updates do not affect the event). -/
def handle_login_attempt (ip username password : Str) : Event :=
  let attack_type := "brute_force"
  let threat_level := Level.medium
  let (attack_type, threat_level) :=
    if (username, password) ∈ iot_credentials then ("iot_botnet", Level.high)
    else (attack_type, threat_level)
  { event_type := "login_attempt", source_ip := ip, username := username,
    password := password, success := false, attack_type := attack_type,
    threat_level := threat_level }

/-- `TelnetHoneypot.simulate_command_response`, branch for branch. -/
def simulate_command_response (command : Str) : Str :=
  let cmd := stripL (lowerL command)
  if cmd = "ls".toList ∨ cmd = "dir".toList then
    "\r\nbin  boot  dev  etc  home  lib  media  mnt  opt  proc  root  run  sbin  srv  sys  tmp  usr  var\r\n".toList
  else if cmd = "pwd".toList then "\r\n/home/user\r\n".toList
  else if cmd = "whoami".toList then "\r\nuser\r\n".toList
  else if cmd = "id".toList then
    "\r\nuid=1000(user) gid=1000(user) groups=1000(user)\r\n".toList
  else if startsWithL cmd "cat ".toList then
    "\r\ncat: permission denied\r\n".toList
  else if cmd = "ps".toList then
    "\r\n  PID TTY          TIME CMD\r\n 1234 pts/0    00:00:00 bash\r\n".toList
  else if cmd = "uname -a".toList then
    "\r\nLinux honeypot 5.4.0-74-generic #83-Ubuntu SMP Sat May 8 02:35:39 UTC 2021 x86_64 x86_64 x86_64 GNU/Linux\r\n".toList
  else if cmd = "exit".toList ∨ cmd = "quit".toList ∨ cmd = "logout".toList then
    "\r\nlogout\r\n".toList
  else
    "\r\n".toList ++ cmd ++ ": command not found\r\n".toList

/-- The `f"{username}@honeypot:~$ "` shell prompt. -/
def shellPrompt (username : Str) : Str := username ++ "@honeypot:~$ ".toList

/-- The `command_execution` event emitted per shell line. -/
def command_event (ip username cmd : Str) : Event :=
  { event_type := "command_execution", source_ip := ip, username := username,
    command := cmd, attack_type := "command_injection" }

/-- The `while True` loop of `simulate_shell`, at the granularity of
`get_input` results (`reads`).  `sOk i` tells whether the `i`-th socket
send succeeds; a failing send raises, is caught by the surrounding
`except`, and ends the shell.  Returns the emitted events, the payloads
sent (in order, events and sends listed separately), and the unconsumed
reads. -/
def shell_loop (sOk : Nat → Bool) (i : Nat) (ip username : Str) :
    List (Option Str) → List Event × List Str × List (Option Str)
  | [] => ([], [], [])
  | r :: rest =>
    match r with
    | none => ([], [], rest)
    | some command =>
      if command.isEmpty then ([], [], rest)
      else
        let ev := command_event ip username command
        if sOk i = false then ([ev], [], rest)
        else
          let response := simulate_command_response command
          if sOk (i + 1) = false then ([ev], [response], rest)
          else if 10 < wordCount command then
            ([ev], [response, shellPrompt username], rest)
          else
            let (evs, outs, rem) := shell_loop sOk (i + 2) ip username rest
            (ev :: evs, response :: shellPrompt username :: outs, rem)

/-- `TelnetHoneypot.simulate_shell`: send the initial prompt, then loop. -/
def simulate_shell (sOk : Nat → Bool) (ip username : Str)
    (reads : List (Option Str)) : List Event × List Str × List (Option Str) :=
  if sOk 0 = false then ([], [], reads)
  else
    let (evs, outs, rem) := shell_loop sOk 1 ip username reads
    (evs, shellPrompt username :: outs, rem)

/-- Spec-side: a read that keeps the shell loop going — a line that is
nonempty after stripping and has at most 10 whitespace-separated words. -/
def good_line : Option Str → Bool
  | none => false
  | some l => !l.isEmpty && decide (wordCount l ≤ 10)

/-- Spec-side: event/output contribution of the first non-continuing read,
if any: an empty or timed-out read contributes nothing, an over-10-word
line still contributes its event. -/
def spec_last_events (ip username : Str) (rest : List (Option Str)) : List Event :=
  match rest.head? with
  | some (some l) =>
    if l.isEmpty then [] else [command_event ip username l]
  | _ => []

/-- Spec-side: sends of the first non-continuing read: an over-10-word line
still receives its response (and the next prompt, sent before the length
check). -/
def spec_last_outs (username : Str) (rest : List (Option Str)) : List Str :=
  match rest.head? with
  | some (some l) =>
    if l.isEmpty then []
    else [simulate_command_response l, shellPrompt username]
  | _ => []

/-- Spec-side shape of a full shell session (all sends succeeding): the
loop consumes exactly the longest prefix of continuing lines plus one
terminating read, each continuing line produces its event, its response
and a fresh prompt, and the terminating read is an empty/timeout read
(nothing) or an over-10-word line (event and response still produced). -/
def shell_spec (ip username : Str) (reads : List (Option Str)) :
    List Event × List Str × List (Option Str) :=
  let pre := (reads.takeWhile good_line).reduceOption
  let rest := reads.dropWhile good_line
  (pre.map (command_event ip username) ++ spec_last_events ip username rest,
   shellPrompt username ::
     (pre.bind (fun l => [simulate_command_response l, shellPrompt username]) ++
      spec_last_outs username rest),
   rest.tail)

/-- Observable actions of a connection handler, in order. -/
inductive Action
  | emit (e : Event)
  | send (data : Str)
  | close
deriving DecidableEq, Repr

/-- The `connection` event at the top of `handle_client`. -/
def connection_event (ip : Str) (srcPort dstPort : Nat) : Event :=
  { event_type := "connection", source_ip := ip, source_port := srcPort,
    destination_port := dstPort }

/-- The `disconnect` event of the `finally` block. -/
def disconnect_event (ip : Str) : Event :=
  { event_type := "disconnect", source_ip := ip }

def telnet_banner : Str := "Ubuntu 20.04.3 LTS\r\nlogin: ".toList

/-- The `try` block of `TelnetHoneypot.handle_client`.  `uRead`/`pRead` are
the results of the two `get_input` calls (`none` = timeout/error), `sOk`
the send oracle (indices 0,1,2 for the three direct sends, 3+ for
`simulate_shell`).  A failing send raises; the exception is caught by the
surrounding `except`, ending the body. -/
def handle_client_body (sOk : Nat → Bool) (ip : Str) (uRead pRead : Option Str)
    (shellReads : List (Option Str)) : List Action :=
  if sOk 0 = false then []
  else
    Action.send telnet_banner ::
      (match uRead with
       | none => []
       | some username =>
         if username.isEmpty then []
         else if sOk 1 = false then []
         else
           Action.send "Password: ".toList ::
             (match pRead with
              | none => []
              | some password =>
                if password.isEmpty then []
                else
                  Action.emit (handle_login_attempt ip username password) ::
                    (if sOk 2 = false then []
                     else
                       Action.send "\r\nLogin incorrect\r\n".toList ::
                         (let (evs, outs, _) :=
                            simulate_shell (fun n => sOk (n + 3)) ip username
                              shellReads
                          outs.map Action.send ++ evs.map Action.emit))))

/-- `TelnetHoneypot.handle_client`: emit `connection`, run the guarded body,
then the `finally` block: close the socket and emit `disconnect`. -/
def handle_client (sOk : Nat → Bool) (ip : Str) (srcPort : Nat)
    (uRead pRead : Option Str) (shellReads : List (Option Str)) : List Action :=
  (Action.emit (connection_event ip srcPort 23) ::
    handle_client_body sOk ip uRead pRead shellReads) ++
    [Action.close, Action.emit (disconnect_event ip)]

end Telnet

/-! ## FTP honeypot (src/honeypots/ftp/ftp_honeypot.py) -/

/-- Outcome of an authentication callback: `denied` models both an
explicitly returned failure and a raised "Authentication failed". -/
inductive AuthResult
  | denied
  | allowed
deriving DecidableEq, Repr

namespace FTP

/-- `HoneypotAuthorizer.validate_authentication`: emit one `login_attempt`
event carrying the raw credentials, then always raise (deny). -/
def validate_authentication (ip username password : Str) :
    List Event × AuthResult :=
  ([{ event_type := "login_attempt", source_ip := ip, username := username,
      password := password, success := false, attack_type := "brute_force" }],
   AuthResult.denied)

end FTP

/-! ## SSH honeypot (src/honeypots/ssh/ssh_honeypot.py) -/

namespace SSH

/-- `SSHHoneypot.handle_auth`: emit one `auth_attempt` event and return
`False`. -/
def handle_auth (ip username password : Str) : List Event × Bool :=
  ([{ event_type := "auth_attempt", source_ip := ip, username := username,
      password := password, success := false, attack_type := "brute_force" }],
   false)

/-- `SSHServerInterface.check_auth_password`: log via `handle_auth`, then
return `paramiko.AUTH_FAILED`. -/
def check_auth_password (ip username password : Str) :
    List Event × AuthResult :=
  ((handle_auth ip username password).1, AuthResult.denied)

/-- `SSHHoneypot.handle_client`: emit `connection`; during the `try` block
the transport invokes `check_auth_password` once per password attempt made
by the peer (`authAttempts`); whether the block then returns normally or
raises, the `finally` block closes the socket and emits `disconnect`. -/
def handle_client (ip : Str) (srcPort : Nat)
    (authAttempts : List (Str × Str)) : List Telnet.Action :=
  (Telnet.Action.emit (Telnet.connection_event ip srcPort 22) ::
    authAttempts.bind
      (fun up => ((check_auth_password ip up.1 up.2).1).map Telnet.Action.emit)) ++
    [Telnet.Action.close, Telnet.Action.emit (Telnet.disconnect_event ip)]

end SSH

/-! ## Alert service (src/services/alerts/alert_service.py)

Time is modelled as seconds (`Nat`); `datetime.now().strftime("%Y%m%d%H")`
is injective per hour and is modelled by the hour index `t / 3600`;
`timedelta(hours=24)` is `86400` seconds.  The Elasticsearch aggregates a
check consumes are inputs of the corresponding step. -/

namespace Alerts

/-- A dedup key: (check name, dimension, hour bucket).  The dimension is the
source IP for the brute-force check and empty for the others, mirroring the
`f"..._{hour}"` / `f"brute_force_{ip}_{hour}"` key strings. -/
abbrev AKey := String × String × Nat

/-- `self.sent_alerts`: dedup key to dispatch time. -/
abbrev AlertState := List (AKey × Nat)

/-- `self.thresholds`, with the documented defaults. -/
structure Thresholds where
  high_volume_attacks : Nat := 100
  unique_ips_per_hour : Nat := 50
  brute_force_attempts : Nat := 20
  iot_botnet_activity : Nat := 10
deriving DecidableEq, Repr

def hourBucket (t : Nat) : Nat := t / 3600

/-- `alert_key in self.sent_alerts`. -/
def hasKey (s : AlertState) (k : AKey) : Bool :=
  s.any (fun e => decide (e.1 = k))

/-- One dispatched notification (subject/body/metadata abstracted to the
dedup key and severity, the data the claims are about). -/
structure Notif where
  key : AKey
  severity : Level
deriving DecidableEq, Repr

/-- The shared dispatch-or-suppress tail of every check:
`if alert_key not in self.sent_alerts: self.send_alert(...);
self.sent_alerts[alert_key] = datetime.now()`. -/
def tryDispatch (k : AKey) (sev : Level) (t : Nat) (s : AlertState) :
    AlertState × List Notif :=
  if hasKey s k then (s, [])
  else (s ++ [(k, t)], [{ key := k, severity := sev }])

/-- `AlertService.check_high_volume_attacks` given the queried aggregate. -/
def check_high_volume_attacks (th : Thresholds) (attack_count : Nat)
    (t : Nat) (s : AlertState) : AlertState × List Notif :=
  if th.high_volume_attacks < attack_count then
    tryDispatch ("high_volume", "", hourBucket t) Level.high t s
  else (s, [])

/-- `AlertService.check_unique_ips` given the queried cardinality. -/
def check_unique_ips (th : Thresholds) (unique_ip_count : Nat)
    (t : Nat) (s : AlertState) : AlertState × List Notif :=
  if th.unique_ips_per_hour < unique_ip_count then
    tryDispatch ("unique_ips", "", hourBucket t) Level.medium t s
  else (s, [])

/-- The per-IP loop of `check_brute_force_attacks` over the terms buckets. -/
def brute_force_go (th : Thresholds) (t : Nat) :
    AlertState → List (String × Nat) → AlertState × List Notif
  | s, [] => (s, [])
  | s, (ip, attempt_count) :: rest =>
    if th.brute_force_attempts < attempt_count then
      let (s1, n1) := tryDispatch ("brute_force", ip, hourBucket t) Level.high t s
      let (s2, n2) := brute_force_go th t s1 rest
      (s2, n1 ++ n2)
    else brute_force_go th t s rest

/-- `AlertService.check_brute_force_attacks` given the per-IP buckets. -/
def check_brute_force_attacks (th : Thresholds) (buckets : List (String × Nat))
    (t : Nat) (s : AlertState) : AlertState × List Notif :=
  brute_force_go th t s buckets

/-- `AlertService.check_iot_botnet_activity` given the queried count. -/
def check_iot_botnet_activity (th : Thresholds) (iot_count : Nat)
    (t : Nat) (s : AlertState) : AlertState × List Notif :=
  if th.iot_botnet_activity < iot_count then
    tryDispatch ("iot_botnet", "", hourBucket t) Level.critical t s
  else (s, [])

/-- `AlertService.cleanup_old_alerts`: collect the keys whose recorded
dispatch time is before `now - 24h`, then delete them. -/
def cleanup_old_alerts (t : Nat) (s : AlertState) : AlertState :=
  let cutoff := t - 86400
  let keys_to_remove := (s.filter (fun e => decide (e.2 < cutoff))).map (fun e => e.1)
  s.filter (fun e => !(keys_to_remove.any (fun k => decide (k = e.1))))

/-- One scheduled action of the service, with the aggregates its query
returned. -/
inductive AStep
  | highVolume (attack_count : Nat)
  | uniqueIps (unique_ip_count : Nat)
  | bruteForce (buckets : List (String × Nat))
  | iotBotnet (iot_count : Nat)
  | cleanup
deriving Repr

/-- Execute one step at wall-clock time `t`. -/
def runStep (th : Thresholds) (s : AlertState) (t : Nat) :
    AStep → AlertState × List Notif
  | AStep.highVolume c => check_high_volume_attacks th c t s
  | AStep.uniqueIps c => check_unique_ips th c t s
  | AStep.bruteForce bs => check_brute_force_attacks th bs t s
  | AStep.iotBotnet c => check_iot_botnet_activity th c t s
  | AStep.cleanup => (cleanup_old_alerts t s, [])

/-- Execute a timed execution history of the service. -/
def runTrace (th : Thresholds) : AlertState → List (Nat × AStep) →
    AlertState × List Notif
  | s, [] => (s, [])
  | s, (t, st) :: rest =>
    let p1 := runStep th s t st
    let p2 := runTrace th p1.1 rest
    (p2.1, p1.2 ++ p2.2)

/-- The times of a history are nondecreasing, starting no earlier than
`t0` (wall-clock time is monotone). -/
def ChainFrom : Nat → List (Nat × AStep) → Prop
  | _, [] => True
  | t0, (t, _) :: rest => t0 ≤ t ∧ ChainFrom t rest

/-- State invariant at current time `t0`: every dedup entry was recorded at
the time its key bucket names, no later than now, and keys are unique
(`sent_alerts` is a dict). -/
def StInv (t0 : Nat) (s : AlertState) : Prop :=
  (∀ e ∈ s, e.1.2.2 = hourBucket e.2 ∧ e.2 ≤ t0) ∧
  (s.map (fun e => e.1)).Nodup

/-- A key is spent at time `t0`: it is recorded, or its hour bucket lies in
the past (so no future check can ever build it again). -/
def KeyDone (t0 : Nat) (s : AlertState) (k : AKey) : Prop :=
  hasKey s k = true ∨ k.2.2 < hourBucket t0

/-- Count the notifications carrying a given dedup key. -/
def countKey (k : AKey) (ns : List Notif) : Nat :=
  ns.countP (fun n => decide (n.key = k))

/-- What one step execution from time `t0` to time `t` must preserve. -/
def StepOK (t0 t : Nat) (s s2 : AlertState) (ns : List Notif) : Prop :=
  StInv t s2 ∧
  (∀ k, countKey k ns ≤ 1) ∧
  (∀ k, KeyDone t0 s k → countKey k ns = 0) ∧
  (∀ k, KeyDone t0 s k → KeyDone t s2 k) ∧
  (∀ k, 1 ≤ countKey k ns → KeyDone t s2 k)

end Alerts

/-! ## Remaining spec-side definitions used by the claim statements -/

namespace Telnet

/-- Spec-side: the number of ordinary (accepted) bytes the editor consumes
from a stream before its terminator — each of these echoes exactly one `*`
in password mode. -/
def ordCount : List RecvR → Nat
  | [] => 0
  | RecvR.closed :: _ => 0
  | RecvR.timeout :: _ => 0
  | RecvR.byte c :: rest =>
    if isEOL c then 0
    else if isBS c then ordCount rest
    else ordCount rest + 1

/-- Recognizes the emission of a `disconnect` event in an action trace. -/
def isDisconnectEmit : Action → Bool
  | Action.emit e => decide (e.event_type = "disconnect")
  | _ => false

/-- Recognizes the emission of a `login_attempt` event in an action trace. -/
def isLoginEmit : Action → Bool
  | Action.emit e => decide (e.event_type = "login_attempt")
  | _ => false

end Telnet

/-! ## Helper lemmas -/

namespace Alerts

lemma hourBucket_mono {a b : Nat} (h : a ≤ b) : hourBucket a ≤ hourBucket b :=
  Nat.div_le_div_right h

lemma bucket_lt_of_age {ts t : Nat} (h : ts + 86400 < t) :
    hourBucket ts < hourBucket t := by
  have h1 : ts + 24 * 3600 ≤ t := by omega
  have h2 : (ts + 24 * 3600) / 3600 ≤ t / 3600 := Nat.div_le_div_right h1
  have h3 : (ts + 24 * 3600) / 3600 = ts / 3600 + 24 :=
    Nat.add_mul_div_right ts 24 (by norm_num)
  simp only [hourBucket]
  omega

lemma hasKey_iff {s : AlertState} {k : AKey} :
    hasKey s k = true ↔ ∃ e ∈ s, e.1 = k := by
  simp [hasKey]

lemma stInv_weaken {t0 t : Nat} {s : AlertState} (h : StInv t0 s)
    (hle : t0 ≤ t) : StInv t s := by
  obtain ⟨h1, h2⟩ := h
  exact ⟨fun e he => ⟨(h1 e he).1, le_trans (h1 e he).2 hle⟩, h2⟩

lemma keyDone_weaken {t0 t : Nat} {s : AlertState} {k : AKey}
    (h : KeyDone t0 s k) (hle : t0 ≤ t) : KeyDone t s k := by
  rcases h with h | h
  · exact Or.inl h
  · exact Or.inr (lt_of_lt_of_le h (hourBucket_mono hle))

lemma skip_ok {t0 t : Nat} {s : AlertState} (hInv : StInv t0 s)
    (hle : t0 ≤ t) : StepOK t0 t s s [] := by
  refine ⟨stInv_weaken hInv hle, ?_, ?_, ?_, ?_⟩
  · intro k; simp [countKey]
  · intro k _; simp [countKey]
  · intro k hk; exact keyDone_weaken hk hle
  · intro k hk; simp [countKey] at hk

lemma countKey_single {k k2 : AKey} {sev : Level} :
    countKey k2 [{ key := k, severity := sev }] = if k = k2 then 1 else 0 := by
  simp [countKey, List.countP_cons]

lemma tryDispatch_ok {k : AKey} {sev : Level} {t0 t : Nat} {s : AlertState}
    (hk : k.2.2 = hourBucket t) (hInv : StInv t0 s) (hle : t0 ≤ t) :
    StepOK t0 t s (tryDispatch k sev t s).1 (tryDispatch k sev t s).2 := by
  by_cases h : hasKey s k = true
  · simp only [tryDispatch, h, if_pos]
    exact skip_ok hInv hle
  · simp only [tryDispatch, h, if_neg, Bool.not_eq_true]
    refine ⟨?_, ?_, ?_, ?_, ?_⟩
    · constructor
      · intro e he
        rcases List.mem_append.1 he with he | he
        · exact ⟨(hInv.1 e he).1, le_trans (hInv.1 e he).2 hle⟩
        · simp at he
          subst he
          exact ⟨hk, le_refl t⟩
      · rw [List.map_append, List.nodup_append]
        refine ⟨hInv.2, by simp, ?_⟩
        intro a ha hb
        simp at hb
        subst hb
        refine h (hasKey_iff.2 ?_)
        rcases List.mem_map.1 ha with ⟨e, he, hek⟩
        exact ⟨e, he, hek⟩
    · intro k2
      rw [countKey_single]
      split <;> omega
    · intro k2 hdone
      have hne : ¬ k = k2 := by
        intro hEq
        subst hEq
        rcases hdone with hd | hd
        · exact h hd
        · rw [hk] at hd
          exact absurd hd (not_lt.2 (hourBucket_mono hle))
      rw [countKey_single, if_neg hne]
    · intro k2 hdone
      rcases hdone with hd | hd
      · refine Or.inl (hasKey_iff.2 ?_)
        rcases hasKey_iff.1 hd with ⟨e, he, hek⟩
        exact ⟨e, List.mem_append.2 (Or.inl he), hek⟩
      · exact Or.inr (lt_of_lt_of_le hd (hourBucket_mono hle))
    · intro k2 hcnt
      rw [countKey_single] at hcnt
      by_cases hEq : k = k2
      · subst hEq
        exact Or.inl (hasKey_iff.2 ⟨(k, t), List.mem_append.2 (Or.inr (by simp)), rfl⟩)
      · rw [if_neg hEq] at hcnt
        omega

lemma stepOK_comp {t0 t : Nat} {s s1 s2 : AlertState} {ns1 ns2 : List Notif}
    (hA : StepOK t0 t s s1 ns1) (hB : StepOK t t s1 s2 ns2) :
    StepOK t0 t s s2 (ns1 ++ ns2) := by
  obtain ⟨hI1, hc1, hz1, hd1, hp1⟩ := hA
  obtain ⟨hI2, hc2, hz2, hd2, hp2⟩ := hB
  refine ⟨hI2, ?_, ?_, ?_, ?_⟩
  · intro k
    by_cases h1 : 1 ≤ countKey k ns1
    · have hz := hz2 k (hp1 k h1)
      have hle1 := hc1 k
      simp only [countKey, List.countP_append] at *
      omega
    · have hle2 := hc2 k
      simp only [countKey, List.countP_append] at *
      omega
  · intro k hk
    have e1 := hz1 k hk
    have e2 := hz2 k (hd1 k hk)
    simp only [countKey, List.countP_append] at *
    omega
  · intro k hk
    exact hd2 k (hd1 k hk)
  · intro k hk
    by_cases h1 : 1 ≤ countKey k ns1
    · exact hd2 k (hp1 k h1)
    · have h2 : 1 ≤ countKey k ns2 := by
        simp only [countKey, List.countP_append] at *
        omega
      exact hp2 k h2

lemma cleanup_mem {t : Nat} {s : AlertState} {e : AKey × Nat} :
    e ∈ cleanup_old_alerts t s ↔
      e ∈ s ∧ ∀ e2 ∈ s, e2.1 = e.1 → ¬ e2.2 < t - 86400 := by
  simp only [cleanup_old_alerts, List.mem_filter, Bool.not_eq_true',
    List.any_eq_false, List.mem_map, List.mem_filter, decide_eq_true_eq,
    decide_eq_false_iff_not]
  constructor
  · rintro ⟨hes, hcond⟩
    refine ⟨hes, ?_⟩
    intro e2 he2 hkey hlt
    exact hcond e2.1 ⟨e2, ⟨he2, hlt⟩, rfl⟩ hkey
  · rintro ⟨hes, hcond⟩
    refine ⟨hes, ?_⟩
    rintro a ⟨e2, ⟨he2, hlt⟩, rfl⟩ hkey
    exact hcond e2 he2 hkey hlt

lemma cleanup_ok {t0 t : Nat} {s : AlertState} (hInv : StInv t0 s)
    (hle : t0 ≤ t) : StepOK t0 t s (cleanup_old_alerts t s) [] := by
  refine ⟨?_, ?_, ?_, ?_, ?_⟩
  · constructor
    · intro e he
      have hes : e ∈ s := (cleanup_mem.1 he).1
      exact ⟨(hInv.1 e hes).1, le_trans (hInv.1 e hes).2 hle⟩
    · exact ((List.filter_sublist s).map (fun e => e.1)).nodup hInv.2
  · intro k; simp [countKey]
  · intro k _; simp [countKey]
  · intro k hk
    rcases hk with hk | hk
    · rcases hasKey_iff.1 hk with ⟨e, he, hek⟩
      by_cases hsurv : ∀ e2 ∈ s, e2.1 = e.1 → ¬ e2.2 < t - 86400
      · exact Or.inl (hasKey_iff.2 ⟨e, cleanup_mem.2 ⟨he, hsurv⟩, hek⟩)
      · push_neg at hsurv
        obtain ⟨e2, he2, hkey, hlt⟩ := hsurv
        have heq2 : e2 = e := List.inj_on_of_nodup_map hInv.2 he2 he hkey
        subst heq2
        have hage : e2.2 + 86400 < t := by omega
        have hb := bucket_lt_of_age hage
        have hbk : e2.1.2.2 = hourBucket e2.2 := (hInv.1 e2 he2).1
        refine Or.inr ?_
        rw [← hek, hbk]
        exact hb
    · exact Or.inr (lt_of_lt_of_le hk (hourBucket_mono hle))
  · intro k hk
    simp [countKey] at hk

end Alerts

namespace Alerts

lemma brute_force_go_ok (th : Thresholds) (t : Nat) :
    ∀ (bs : List (String × Nat)) (t0 : Nat) (s : AlertState),
    StInv t0 s → t0 ≤ t →
    StepOK t0 t s (brute_force_go th t s bs).1 (brute_force_go th t s bs).2 := by
  intro bs
  induction bs with
  | nil =>
    intro t0 s hInv hle
    simpa [brute_force_go] using skip_ok hInv hle
  | cons b rest ih =>
    intro t0 s hInv hle
    obtain ⟨ip, attempt_count⟩ := b
    by_cases hthr : th.brute_force_attempts < attempt_count
    · have hA := @tryDispatch_ok ("brute_force", ip, hourBucket t) Level.high
        t0 t s rfl hInv hle
      have hB := ih t (tryDispatch ("brute_force", ip, hourBucket t) Level.high t s).1
        hA.1 (le_refl t)
      have := stepOK_comp hA hB
      simpa [brute_force_go, hthr] using this
    · have := ih t0 s hInv hle
      simpa [brute_force_go, hthr] using this

lemma runStep_ok (th : Thresholds) (st : AStep) {t0 t : Nat} {s : AlertState}
    (hInv : StInv t0 s) (hle : t0 ≤ t) :
    StepOK t0 t s (runStep th s t st).1 (runStep th s t st).2 := by
  cases st with
  | highVolume c =>
    by_cases hthr : th.high_volume_attacks < c
    · have := @tryDispatch_ok ("high_volume", "", hourBucket t) Level.high
        t0 t s rfl hInv hle
      simpa [runStep, check_high_volume_attacks, hthr] using this
    · simpa [runStep, check_high_volume_attacks, hthr] using skip_ok hInv hle
  | uniqueIps c =>
    by_cases hthr : th.unique_ips_per_hour < c
    · have := @tryDispatch_ok ("unique_ips", "", hourBucket t) Level.medium
        t0 t s rfl hInv hle
      simpa [runStep, check_unique_ips, hthr] using this
    · simpa [runStep, check_unique_ips, hthr] using skip_ok hInv hle
  | bruteForce bs =>
    simpa [runStep, check_brute_force_attacks] using
      brute_force_go_ok th t bs t0 s hInv hle
  | iotBotnet c =>
    by_cases hthr : th.iot_botnet_activity < c
    · have := @tryDispatch_ok ("iot_botnet", "", hourBucket t) Level.critical
        t0 t s rfl hInv hle
      simpa [runStep, check_iot_botnet_activity, hthr] using this
    · simpa [runStep, check_iot_botnet_activity, hthr] using skip_ok hInv hle
  | cleanup =>
    simpa [runStep] using cleanup_ok hInv hle

lemma runTrace_ok (th : Thresholds) :
    ∀ (trace : List (Nat × AStep)) (t0 : Nat) (s : AlertState),
    StInv t0 s → ChainFrom t0 trace → ∀ k,
    countKey k (runTrace th s trace).2 ≤ 1 ∧
    (KeyDone t0 s k → countKey k (runTrace th s trace).2 = 0) := by
  intro trace
  induction trace with
  | nil =>
    intro t0 s hInv hch k
    simp [runTrace, countKey]
  | cons p rest ih =>
    obtain ⟨t, st⟩ := p
    intro t0 s hInv hch k
    obtain ⟨hle, hch2⟩ := hch
    have hstep := runStep_ok th st hInv hle
    obtain ⟨hI, hc1, hz1, hd1, hp1⟩ := hstep
    have hrec := ih t (runStep th s t st).1 hI hch2 k
    have hsum : countKey k (runTrace th s ((t, st) :: rest)).2 =
        countKey k (runStep th s t st).2 +
        countKey k (runTrace th (runStep th s t st).1 rest).2 := by
      simp [runTrace, countKey, List.countP_append]
    constructor
    · rw [hsum]
      by_cases h1 : 1 ≤ countKey k (runStep th s t st).2
      · have hz := (hrec.2) (hp1 k h1)
        have := hc1 k
        omega
      · have := hrec.1
        omega
    · intro hdone
      rw [hsum, hz1 k hdone, (hrec.2) (hd1 k hdone)]

lemma stInv_zero : StInv 0 ([] : AlertState) := by
  constructor
  · intro e he
    simp at he
  · simp

end Alerts

namespace Telnet

lemma get_input_go_hide_echo : ∀ (rl : List RecvR) (d e : Str),
    (get_input_go true d e rl).2.1 =
      e ++ List.replicate (ordCount rl) (Char.ofNat 42) := by
  intro rl
  induction rl with
  | nil => intro d e; simp [get_input_go, ordCount]
  | cons r rest ih =>
    intro d e
    cases r with
    | closed => simp [get_input_go, ordCount]
    | timeout => simp [get_input_go, ordCount]
    | byte c =>
      by_cases hEol : isEOL c = true
      · simp [get_input_go, ordCount, hEol]
      · by_cases hBs : isBS c = true
        · by_cases hd : d.isEmpty
          · simp [get_input_go, ordCount, hEol, hBs, hd, ih]
          · simp [get_input_go, ordCount, hEol, hBs, hd, ih]
        · simp [get_input_go, ordCount, hEol, hBs, ih, List.replicate_succ,
            List.append_assoc]

lemma get_input_hide_echo (rl : List RecvR) :
    (get_input true rl).2.1 = List.replicate (ordCount rl) (Char.ofNat 42) := by
  have h2 := get_input_go_hide_echo rl [] []
  unfold get_input
  rcases hgo : get_input_go true [] [] rl with ⟨od, e, rest⟩
  rw [hgo] at h2
  simp at h2
  cases od <;> simpa using h2

lemma get_input_go_bs (hide : Bool) (d e : Str) (rl : List RecvR) :
    get_input_go hide d e (RecvR.byte (Char.ofNat 8) :: rl) =
      get_input_go hide d.dropLast
        (e ++ (if hide || d.isEmpty then [] else eraseSeq)) rl := by
  have hEol : isEOL (Char.ofNat 8) = false := by decide
  have hBs : isBS (Char.ofNat 8) = true := by decide
  cases d <;> cases hide <;> simp [get_input_go, hEol, hBs]

lemma get_input_go_del (hide : Bool) (d e : Str) (rl : List RecvR) :
    get_input_go hide d e (RecvR.byte (Char.ofNat 127) :: rl) =
      get_input_go hide d.dropLast
        (e ++ (if hide || d.isEmpty then [] else eraseSeq)) rl := by
  have hEol : isEOL (Char.ofNat 127) = false := by decide
  have hBs : isBS (Char.ofNat 127) = true := by decide
  cases d <;> cases hide <;> simp [get_input_go, hEol, hBs]

lemma get_input_go_cr (hide : Bool) (d e : Str) (rl : List RecvR) :
    get_input_go hide d e (RecvR.byte (Char.ofNat 13) :: rl) = (some d, e, rl) := by
  have hEol : isEOL (Char.ofNat 13) = true := by decide
  simp [get_input_go, hEol]

lemma get_input_go_lf (hide : Bool) (d e : Str) (rl : List RecvR) :
    get_input_go hide d e (RecvR.byte (Char.ofNat 10) :: rl) = (some d, e, rl) := by
  have hEol : isEOL (Char.ofNat 10) = true := by decide
  simp [get_input_go, hEol]

lemma shell_loop_spec (ip username : Str) : ∀ (reads : List (Option Str)) (i : Nat),
    shell_loop (fun _ => true) i ip username reads =
      ((reads.takeWhile good_line).reduceOption.map (command_event ip username) ++
         spec_last_events ip username (reads.dropWhile good_line),
       (reads.takeWhile good_line).reduceOption.bind
           (fun l => [simulate_command_response l, shellPrompt username]) ++
         spec_last_outs username (reads.dropWhile good_line),
       (reads.dropWhile good_line).tail) := by
  intro reads
  induction reads with
  | nil =>
    intro i
    simp [shell_loop, spec_last_events, spec_last_outs]
  | cons r rest ih =>
    intro i
    cases r with
    | none =>
      have hg : good_line none = false := rfl
      simp [shell_loop, List.takeWhile_cons, List.dropWhile_cons, hg,
        spec_last_events, spec_last_outs]
    | some l =>
      by_cases hemp : l.isEmpty
      · have hg : good_line (some l) = false := by simp [good_line, hemp]
        simp [shell_loop, hemp, List.takeWhile_cons, List.dropWhile_cons, hg,
          spec_last_events, spec_last_outs]
      · by_cases hwc : 10 < wordCount l
        · have hg : good_line (some l) = false := by
            simp [good_line, hemp]
            omega
          simp [shell_loop, hemp, hwc, List.takeWhile_cons,
            List.dropWhile_cons, hg, spec_last_events, spec_last_outs]
        · have hg : good_line (some l) = true := by
            simp [good_line, hemp]
            omega
          simp [shell_loop, hemp, hwc, List.takeWhile_cons,
            List.dropWhile_cons, hg, ih (i + 2)]

lemma shell_loop_events_type (sOk : Nat → Bool) (ip username : Str) :
    ∀ (reads : List (Option Str)) (i : Nat),
    ∀ e ∈ (shell_loop sOk i ip username reads).1,
      e.event_type = "command_execution" := by
  intro reads
  induction reads with
  | nil =>
    intro i e he
    simp [shell_loop] at he
  | cons r rest ih =>
    intro i e he
    cases r with
    | none => simp [shell_loop] at he
    | some l =>
      by_cases hemp : l.isEmpty
      · simp [shell_loop, hemp] at he
      · by_cases h0 : sOk i = false
        · simp [shell_loop, hemp, h0] at he
          subst he
          rfl
        · by_cases h1 : sOk (i + 1) = false
          · simp [shell_loop, hemp, h0, h1] at he
            subst he
            rfl
          · by_cases hwc : 10 < wordCount l
            · simp [shell_loop, hemp, h0, h1, hwc] at he
              subst he
              rfl
            · simp [shell_loop, hemp, h0, h1, hwc] at he
              rcases he with he | he
              · subst he
                rfl
              · exact ih (i + 2) e he

lemma handle_login_attempt_type (ip u p : Str) :
    (handle_login_attempt ip u p).event_type = "login_attempt" := by
  by_cases hm : (u, p) ∈ iot_credentials <;> simp [handle_login_attempt, hm]

end Telnet

namespace Telnet

lemma shell_events_type (sOk : Nat → Bool) (ip username : Str)
    (reads : List (Option Str)) :
    ∀ e ∈ (simulate_shell sOk ip username reads).1,
      e.event_type = "command_execution" := by
  intro e hmem
  unfold simulate_shell at hmem
  by_cases h0 : sOk 0 = false
  · simp [h0] at hmem
  · simp [h0] at hmem
    exact shell_loop_events_type sOk ip username reads 1 e hmem

lemma handle_client_body_no_disc (sOk : Nat → Bool) (ip : Str)
    (uRead pRead : Option Str) (shellReads : List (Option Str)) :
    (handle_client_body sOk ip uRead pRead shellReads).countP
      isDisconnectEmit = 0 := by
  unfold handle_client_body
  split
  · rfl
  rw [List.countP_cons]
  simp only [isDisconnectEmit, if_false, Nat.add_zero, Bool.false_eq_true]
  split
  · rfl
  split
  · rfl
  split
  · rfl
  rw [List.countP_cons]
  simp only [isDisconnectEmit, if_false, Nat.add_zero, Bool.false_eq_true]
  split
  · rfl
  split
  · rfl
  rename_i h0 r1 username hu h1 r2 password hp
  rw [List.countP_cons]
  have hlogin : isDisconnectEmit
      (Action.emit (handle_login_attempt ip username password)) = false := by
    simp [isDisconnectEmit, handle_login_attempt_type]
  rw [hlogin]
  simp only [if_false, Nat.add_zero, Bool.false_eq_true]
  split
  · rfl
  rw [List.countP_cons]
  simp only [isDisconnectEmit, if_false, Nat.add_zero, Bool.false_eq_true]
  rw [List.countP_append, List.countP_map, List.countP_map]
  have h1 : ((simulate_shell (fun n => sOk (n + 3)) ip username shellReads).2.1).countP
      (isDisconnectEmit ∘ Action.send) = 0 :=
    List.countP_eq_zero.2 (fun a _ => by simp [Function.comp, isDisconnectEmit])
  have h2 : ((simulate_shell (fun n => sOk (n + 3)) ip username shellReads).1).countP
      (isDisconnectEmit ∘ Action.emit) = 0 := by
    apply List.countP_eq_zero.2
    intro e he
    have htype := shell_events_type (fun n => sOk (n + 3)) ip username shellReads e he
    simp [Function.comp, isDisconnectEmit, htype]
  rw [h1, h2]

lemma handle_client_shape (sOk : Nat → Bool) (ip : Str) (srcPort : Nat)
    (uRead pRead : Option Str) (shellReads : List (Option Str)) :
    handle_client sOk ip srcPort uRead pRead shellReads =
      ((Action.emit (connection_event ip srcPort 23) ::
        handle_client_body sOk ip uRead pRead shellReads) ++ [Action.close]) ++
        [Action.emit (disconnect_event ip)] := by
  unfold handle_client
  simp

end Telnet

lemma analyze_request_spec (st : HTTPStats) (rd : RequestData) :
    analyze_request st rd =
      (specTags (lowerL rd.request_uri) (lowerL rd.user_agent),
       specLevel (lowerL rd.request_uri) (lowerL rd.user_agent)) := by
  cases h1 : sqlHit (lowerL rd.request_uri) <;>
  cases h2 : xssHit (lowerL rd.request_uri) <;>
  cases h3 : travHit (lowerL rd.request_uri) <;>
  cases h4 : adminHit (lowerL rd.request_uri) <;>
  cases h5 : scanHit (lowerL rd.user_agent) <;>
  cases h6 : incHit (lowerL rd.request_uri) <;>
  cases h7 : cmdHit (lowerL rd.request_uri) <;>
  simp [analyze_request, specTags, specLevel, matchedRules, httpRules,
    h1, h2, h3, h4, h5, h6, h7]

/-! ## Claim theorems -/

/-- C1: for the FTP, SSH and HTTP decoys, every submitted credential pair
(including empty strings) is answered with failure and produces exactly one
login/auth-attempt event carrying the raw credentials.  For the telnet
decoy the claim fails: a submitted empty password (here, username "admin"
and an empty password) produces no login_attempt event at all, because
`handle_client` guards the login handling with `if password:`, which is
false for the empty string — even though the code's own `iot_credentials`
list contains `("admin", "")`, `("root", "")` and `("", "")`. -/
theorem c1_auth_failure_events :
    (∀ ip u p, (FTP.validate_authentication ip u p).2 = AuthResult.denied ∧
      (FTP.validate_authentication ip u p).1.map
          (fun e => (e.event_type, e.username, e.password, e.success)) =
        [("login_attempt", u, p, false)]) ∧
    (∀ ip u p, (SSH.check_auth_password ip u p).2 = AuthResult.denied ∧
      (SSH.check_auth_password ip u p).1.map
          (fun e => (e.event_type, e.username, e.password, e.success)) =
        [("auth_attempt", u, p, false)]) ∧
    (∀ ip u p, (fake_login_post ip u p).2 = "Login Failed" ∧
      (fake_login_post ip u p).1.map
          (fun e => (e.event_type, e.username, e.password, e.success)) =
        [("login_attempt", u, p, false)]) ∧
    (Telnet.handle_client (fun _ => true) "1.2.3.4".toList 40000
        (some "admin".toList) (some "".toList) []).countP
      Telnet.isLoginEmit = 0 := by
  refine ⟨?_, ?_, ?_, ?_⟩
  · intro ip u p
    exact ⟨rfl, by simp [FTP.validate_authentication]⟩
  · intro ip u p
    exact ⟨rfl, by simp [SSH.check_auth_password, SSH.handle_auth]⟩
  · intro ip u p
    exact ⟨rfl, by simp [fake_login_post]⟩
  · decide

/-- C2 counterexample: the URI consisting of a single quote followed by
"../" matches both the SQLi rule (high) and the traversal rule (medium);
the claim says the returned threat_level is the maximum (high), but the
code returns medium, because each matching rule overwrites the level. -/
theorem c2_counterexample :
    (analyze_request {}
        { method := "GET".toList,
          request_uri := Char.ofNat 39 :: "../".toList,
          user_agent := [], source_ip := [], referer := [],
          query_string := [] }).1 =
      ["sql_injection", "directory_traversal"] ∧
    (analyze_request {}
        { method := "GET".toList,
          request_uri := Char.ofNat 39 :: "../".toList,
          user_agent := [], source_ip := [], referer := [],
          query_string := [] }).2 = Level.medium ∧
    Level.medium ≠ Level.high := by
  refine ⟨by decide, by decide, by decide⟩

/-- C2 amended: on every input the returned tag list contains the tag of
every matching rule, in rule order, and the returned threat_level equals
the severity of the LAST matching rule in evaluation order (SQLi, XSS,
traversal, admin probe, scanner, file inclusion, command injection), `low`
when no rule matches. -/
theorem c2_http_multi_match (st : HTTPStats) (rd : RequestData) :
    (analyze_request st rd).1 =
      specTags (lowerL rd.request_uri) (lowerL rd.user_agent) ∧
    (analyze_request st rd).2 =
      specLevel (lowerL rd.request_uri) (lowerL rd.user_agent) := by
  have h := analyze_request_spec st rd
  exact ⟨by rw [h], by rw [h]⟩

/-- C3: over every execution history with monotone wall-clock time, at most
one notification is ever dispatched per (check name, dimension, hour
bucket) key; concretely, two high-volume breaches in the same hour bucket
dispatch exactly one notification, and a third breach in the next hour
bucket dispatches a new one. -/
theorem c3_alert_dedup_once :
    (∀ (th : Alerts.Thresholds) (trace : List (Nat × Alerts.AStep)),
      Alerts.ChainFrom 0 trace → ∀ k,
      Alerts.countKey k (Alerts.runTrace th [] trace).2 ≤ 1) ∧
    (Alerts.runTrace {} []
        [(36000, Alerts.AStep.highVolume 150),
         (37800, Alerts.AStep.highVolume 150)]).2.length = 1 ∧
    (Alerts.runTrace {} []
        [(36000, Alerts.AStep.highVolume 150),
         (37800, Alerts.AStep.highVolume 150),
         (39600, Alerts.AStep.highVolume 150)]).2.length = 2 := by
  refine ⟨?_, by decide, by decide⟩
  intro th trace hch k
  exact (Alerts.runTrace_ok th trace 0 [] Alerts.stInv_zero hch k).1

/-- C3 witness: the general dedup bound applied to a concrete two-breach
history. -/
theorem c3_witness :
    Alerts.countKey ("high_volume", "", 10)
      (Alerts.runTrace {} []
        [(36000, Alerts.AStep.highVolume 150),
         (37800, Alerts.AStep.highVolume 150)]).2 ≤ 1 :=
  c3_alert_dedup_once.1 {}
    [(36000, Alerts.AStep.highVolume 150), (37800, Alerts.AStep.highVolume 150)]
    (by norm_num [Alerts.ChainFrom]) ("high_volume", "", 10)

/-- C4: the telnet login classification tags a pair as iot_botnet/high
exactly when it belongs to the fixed list of fifteen IoT default pairs,
and as brute_force/medium otherwise; in particular ("admin","admin") is
iot_botnet/high. -/
theorem c4_telnet_login_classification :
    (∀ ip u p,
      (Telnet.handle_login_attempt ip u p).attack_type =
        (if (u, p) ∈ Telnet.iot_credentials then "iot_botnet"
         else "brute_force") ∧
      (Telnet.handle_login_attempt ip u p).threat_level =
        (if (u, p) ∈ Telnet.iot_credentials then Level.high
         else Level.medium) ∧
      (Telnet.handle_login_attempt ip u p).event_type = "login_attempt" ∧
      (Telnet.handle_login_attempt ip u p).username = u ∧
      (Telnet.handle_login_attempt ip u p).password = p) ∧
    Telnet.iot_credentials.length = 15 ∧
    (Telnet.handle_login_attempt [] "admin".toList "admin".toList).attack_type =
      "iot_botnet" ∧
    (Telnet.handle_login_attempt [] "admin".toList "admin".toList).threat_level =
      Level.high := by
  refine ⟨?_, by decide, by decide, by decide⟩
  intro ip u p
  by_cases hm : (u, p) ∈ Telnet.iot_credentials <;>
    simp [Telnet.handle_login_attempt, hm]

/-- C5: the telnet line editor accumulates bytes until CR/LF; backspace and
DEL (0x08/0x7f) drop the last buffered byte (no-op on an empty buffer) and
echo backspace-space-backspace only in plain mode on a nonempty buffer; in
password mode every accepted byte echoes exactly one star and deletions
echo nothing; concretely, "abc"+backspace+"d"+CR in plain mode yields the
line "abd". -/
theorem c5_telnet_line_editor :
    Telnet.get_input false
        [Telnet.RecvR.byte 'a', Telnet.RecvR.byte 'b', Telnet.RecvR.byte 'c',
         Telnet.RecvR.byte (Char.ofNat 8), Telnet.RecvR.byte 'd',
         Telnet.RecvR.byte (Char.ofNat 13)] =
      (some "abd".toList, "abc".toList ++ Telnet.eraseSeq ++ "d".toList, []) ∧
    (∀ rl, (Telnet.get_input true rl).2.1 =
      List.replicate (Telnet.ordCount rl) (Char.ofNat 42)) ∧
    (∀ hide d e rl,
      Telnet.get_input_go hide d e (Telnet.RecvR.byte (Char.ofNat 8) :: rl) =
        Telnet.get_input_go hide d.dropLast
          (e ++ (if hide || d.isEmpty then [] else Telnet.eraseSeq)) rl) ∧
    (∀ hide d e rl,
      Telnet.get_input_go hide d e (Telnet.RecvR.byte (Char.ofNat 127) :: rl) =
        Telnet.get_input_go hide d.dropLast
          (e ++ (if hide || d.isEmpty then [] else Telnet.eraseSeq)) rl) ∧
    (∀ hide d e rl,
      Telnet.get_input_go hide d e (Telnet.RecvR.byte (Char.ofNat 13) :: rl) =
        (some d, e, rl)) ∧
    (∀ hide d e rl,
      Telnet.get_input_go hide d e (Telnet.RecvR.byte (Char.ofNat 10) :: rl) =
        (some d, e, rl)) :=
  ⟨by decide, Telnet.get_input_hide_echo, Telnet.get_input_go_bs,
   Telnet.get_input_go_del, Telnet.get_input_go_cr, Telnet.get_input_go_lf⟩

/-- C6: with all sends succeeding, the simulated shell consumes exactly the
longest prefix of lines that are nonempty and split into at most 10 words,
plus the single terminating read; every continuing line (exit, quit and
logout included) produces its command_execution event, its response and a
fresh prompt; an empty/timeout read terminates with nothing further, and
an over-10-word line terminates but still produces its event and response;
exit/quit/logout get the fixed "logout" reply. -/
theorem c6_shell_loop_termination :
    (∀ ip username reads,
      Telnet.simulate_shell (fun _ => true) ip username reads =
        Telnet.shell_spec ip username reads) ∧
    Telnet.simulate_command_response "exit".toList = "\r\nlogout\r\n".toList ∧
    Telnet.simulate_command_response "quit".toList = "\r\nlogout\r\n".toList ∧
    Telnet.simulate_command_response "logout".toList = "\r\nlogout\r\n".toList := by
  refine ⟨?_, by decide, by decide, by decide⟩
  intro ip username reads
  unfold Telnet.simulate_shell Telnet.shell_spec
  simp [Telnet.shell_loop_spec ip username reads 1]

/-- C7: one cleanup cycle at time `t` keeps a recorded dedup entry exactly
when it is at most 24 hours old; entries are only filtered, never
modified. -/
theorem c7_cleanup_eviction :
    (∀ t (s : Alerts.AlertState), (Alerts.cleanup_old_alerts t s).Sublist s) ∧
    (∀ t (s : Alerts.AlertState) e, (s.map (fun x => x.1)).Nodup → e ∈ s →
      (e ∈ Alerts.cleanup_old_alerts t s ↔ t - e.2 ≤ 86400)) := by
  constructor
  · intro t s
    exact List.filter_sublist s
  · intro t s e hnd he
    rw [Alerts.cleanup_mem]
    constructor
    · rintro ⟨-, hcond⟩
      have := hcond e he rfl
      omega
    · intro hage
      refine ⟨he, ?_⟩
      intro e2 he2 hkey hlt
      have heq : e2 = e := List.inj_on_of_nodup_map hnd he2 he hkey
      subst heq
      omega

/-- C7 witness: a 23-hour-old entry survives and a 25-hour-old entry is
evicted, on a concrete two-entry store at a concrete time. -/
theorem c7_witness :
    ((("high_volume", "", 2), 7200) ∈
        Alerts.cleanup_old_alerts 90000
          [(("high_volume", "", 2), 7200), (("unique_ips", "", 2), 7300)] ↔
      90000 - 7200 ≤ 86400) :=
  c7_cleanup_eviction.2 90000
    [(("high_volume", "", 2), 7200), (("unique_ips", "", 2), 7300)]
    (("high_volume", "", 2), 7200) (by decide) (by decide)

lemma ssh_auth_events_no_disc (ip : Str) (auths : List (Str × Str)) :
    (auths.bind (fun up =>
        ((SSH.check_auth_password ip up.1 up.2).1).map Telnet.Action.emit)).countP
      Telnet.isDisconnectEmit = 0 := by
  apply List.countP_eq_zero.2
  intro a ha
  rcases List.mem_bind.1 ha with ⟨up, _, hmem⟩
  rcases List.mem_map.1 hmem with ⟨e, he, rfl⟩
  have htype : e.event_type = "auth_attempt" := by
    simp [SSH.check_auth_password, SSH.handle_auth] at he
    rw [he]
  simp [Telnet.isDisconnectEmit, htype]

/-- C8: for every telnet connection — whatever the send oracle, the two
login reads and the shell reads do — and for every ssh connection —
whatever password attempts occur — the handler's action trace contains
exactly one disconnect emission, it is the final action, and it
immediately follows the socket close. -/
theorem c8_disconnect_exactly_once :
    (∀ (sOk : Nat → Bool) (ip : Str) (srcPort : Nat)
        (uRead pRead : Option Str) (shellReads : List (Option Str)),
      (Telnet.handle_client sOk ip srcPort uRead pRead shellReads).countP
        Telnet.isDisconnectEmit = 1 ∧
      (Telnet.handle_client sOk ip srcPort uRead pRead shellReads).getLast? =
        some (Telnet.Action.emit (Telnet.disconnect_event ip)) ∧
      (Telnet.handle_client sOk ip srcPort uRead pRead
          shellReads).dropLast.getLast? = some Telnet.Action.close) ∧
    (∀ (ip : Str) (srcPort : Nat) (auths : List (Str × Str)),
      (SSH.handle_client ip srcPort auths).countP
        Telnet.isDisconnectEmit = 1 ∧
      (SSH.handle_client ip srcPort auths).getLast? =
        some (Telnet.Action.emit (Telnet.disconnect_event ip)) ∧
      (SSH.handle_client ip srcPort auths).dropLast.getLast? =
        some Telnet.Action.close) := by
  constructor
  · intro sOk ip srcPort uRead pRead shellReads
    refine ⟨?_, ?_, ?_⟩
    · unfold Telnet.handle_client
      rw [List.countP_append, List.countP_cons]
      rw [Telnet.handle_client_body_no_disc]
      rfl
    · rw [Telnet.handle_client_shape]
      exact List.getLast?_concat _
    · rw [Telnet.handle_client_shape, List.dropLast_concat]
      exact List.getLast?_concat _
  · intro ip srcPort auths
    refine ⟨?_, ?_, ?_⟩
    · unfold SSH.handle_client
      rw [List.countP_append, List.countP_cons]
      rw [ssh_auth_events_no_disc]
      rfl
    · unfold SSH.handle_client
      rw [show (Telnet.Action.close :: [Telnet.Action.emit (Telnet.disconnect_event ip)]) =
        [Telnet.Action.close] ++ [Telnet.Action.emit (Telnet.disconnect_event ip)] from rfl]
      rw [← List.append_assoc]
      exact List.getLast?_concat _
    · unfold SSH.handle_client
      rw [show (Telnet.Action.close :: [Telnet.Action.emit (Telnet.disconnect_event ip)]) =
        [Telnet.Action.close] ++ [Telnet.Action.emit (Telnet.disconnect_event ip)] from rfl]
      rw [← List.append_assoc, List.dropLast_concat]
      exact List.getLast?_concat _

/-- C9: the HTTP attack classifier is pure: its result is fully determined
by (method, request_uri, user_agent) — two runs on request records that
agree on those three fields, from arbitrary and possibly different
honeypot statistics states and with all other request fields free to
differ, return identical (tags, threat_level). -/
theorem c9_classifier_pure (s1 s2 : HTTPStats) (rd1 rd2 : RequestData)
    (hm : rd1.method = rd2.method)
    (hu : rd1.request_uri = rd2.request_uri)
    (ha : rd1.user_agent = rd2.user_agent) :
    analyze_request s1 rd1 = analyze_request s2 rd2 := by
  rw [analyze_request_spec, analyze_request_spec, hu, ha]

/-- C9 witness: two concrete requests agreeing on (method, uri, user-agent)
but differing in source address, referer and statistics state classify
identically. -/
theorem c9_witness :
    analyze_request {}
        { method := "GET".toList, request_uri := "/login".toList,
          user_agent := "curl".toList, source_ip := "1.1.1.1".toList,
          referer := [], query_string := [] } =
      analyze_request { total_requests := 55, unique_ips := ["9.9.9.9".toList] }
        { method := "GET".toList, request_uri := "/login".toList,
          user_agent := "curl".toList, source_ip := "2.2.2.2".toList,
          referer := "/index".toList, query_string := "a=1".toList } :=
  c9_classifier_pure _ _ _ _ rfl rfl rfl

/-- C10: each of the four alert checks builds a candidate alert only when
its queried aggregate is strictly greater than its threshold: an aggregate
at most the threshold (equality included) leaves the state unchanged and
dispatches nothing, and a strictly greater aggregate on a fresh key does
dispatch. -/
theorem c10_strict_threshold :
    (∀ (th : Alerts.Thresholds) c t s, c ≤ th.high_volume_attacks →
      Alerts.check_high_volume_attacks th c t s = (s, [])) ∧
    (∀ (th : Alerts.Thresholds) c t s, c ≤ th.unique_ips_per_hour →
      Alerts.check_unique_ips th c t s = (s, [])) ∧
    (∀ (th : Alerts.Thresholds) (bs : List (String × Nat)) t s,
      (∀ b ∈ bs, b.2 ≤ th.brute_force_attempts) →
      Alerts.check_brute_force_attacks th bs t s = (s, [])) ∧
    (∀ (th : Alerts.Thresholds) c t s, c ≤ th.iot_botnet_activity →
      Alerts.check_iot_botnet_activity th c t s = (s, [])) ∧
    (∀ (th : Alerts.Thresholds) c t (s : Alerts.AlertState),
      th.high_volume_attacks < c →
      Alerts.hasKey s ("high_volume", "", Alerts.hourBucket t) = false →
      (Alerts.check_high_volume_attacks th c t s).2 ≠ []) := by
  refine ⟨?_, ?_, ?_, ?_, ?_⟩
  · intro th c t s h
    simp [Alerts.check_high_volume_attacks, Nat.not_lt.2 h]
  · intro th c t s h
    simp [Alerts.check_unique_ips, Nat.not_lt.2 h]
  · intro th bs t s
    unfold Alerts.check_brute_force_attacks
    induction bs generalizing s with
    | nil =>
      intro _
      rfl
    | cons b rest ih =>
      intro hall
      have hb := hall b (List.mem_cons_self b rest)
      have hrest : ∀ b2 ∈ rest, b2.2 ≤ th.brute_force_attempts :=
        fun b2 hb2 => hall b2 (List.mem_cons_of_mem b hb2)
      obtain ⟨ip, cnt⟩ := b
      simp only [Alerts.brute_force_go]
      rw [if_neg (Nat.not_lt.2 hb)]
      exact ih s hrest
  · intro th c t s h
    simp [Alerts.check_iot_botnet_activity, Nat.not_lt.2 h]
  · intro th c t s hthr hkey
    simp [Alerts.check_high_volume_attacks, hthr, Alerts.tryDispatch, hkey]

/-- C10 witness: with the default thresholds, aggregates exactly at each
threshold (100, 50, 20, 10) dispatch nothing on an empty state, and an
aggregate of 101 does produce a candidate. -/
theorem c10_witness :
    Alerts.check_high_volume_attacks {} 100 0 [] = ([], []) ∧
    Alerts.check_unique_ips {} 50 0 [] = ([], []) ∧
    Alerts.check_brute_force_attacks {} [("9.9.9.9", 20)] 0 [] = ([], []) ∧
    Alerts.check_iot_botnet_activity {} 10 0 [] = ([], []) ∧
    (Alerts.check_high_volume_attacks {} 101 0 []).2 ≠ [] :=
  ⟨c10_strict_threshold.1 {} 100 0 [] (by decide),
   c10_strict_threshold.2.1 {} 50 0 [] (by decide),
   c10_strict_threshold.2.2.1 {} [("9.9.9.9", 20)] 0 [] (by decide),
   c10_strict_threshold.2.2.2.1 {} 10 0 [] (by decide),
   c10_strict_threshold.2.2.2.2 {} 101 0 [] (by decide) (by decide)⟩
